import Mathlib

/-!
Verification of the log retrieval-and-aggregation pipeline of
`src/lambdas/auth0-ddb-gsheet.py`.

The Python functions `daterange`, `get_logs` (bounded-range branch),
`get_unique_addresses` and `count_users` are shallowly embedded below.
Records are the DynamoDB items' `data` dicts: the two fields the pipeline
reads (`user_name`, `type`) are modelled as `Option String` (a missing key
raises `KeyError` in Python, which `count_users` and `get_unique_addresses`
catch and skip, while `get_logs` would propagate it).  Calendar days are
modelled as integers (days since an arbitrary epoch); the backing store and
the wall clock are an explicit oracle (`Backend`) so that the retry,
pagination and timeout control flow of `get_logs` can be executed and
reasoned about deterministically.  The module-level `EXCLUDED_DOMAINS`
constant is passed as an explicit parameter, matching the spec's
`excludedDomains` argument.
-/

/-- One authentication-event record: the `data` dict of a DynamoDB item.
`user_name` and `type` are `none` when the corresponding key is absent. -/
structure LogRecord where
  user_name : Option String
  type : Option String
deriving DecidableEq, Repr

/-- Python `'@' in user_email`: the string contains the character `@`. -/
def containsAmp (s : String) : Bool := s.toList.contains '@'

/-- Python `user_email.endswith('@')`: the last character is `@`
(`false` on the empty string, as in Python). -/
def endsWithAmp (s : String) : Bool := s.toList.getLastD ' ' == '@'

/-- Python `user_email.split('@')[-1]`: the substring after the last `@`,
or the whole string when no `@` occurs. -/
def emailDomain (s : String) : String :=
  String.mk ((s.toList.reverse.takeWhile (fun c => c ≠ '@')).reverse)

/-- Python `TIMEOUT_SECONDS = 900`. -/
def TIMEOUT_SECONDS : Nat := 900

/-- Python `['f', 's', 'scp', 'fcpr']`, the event types kept by `get_logs`. -/
def interestingTypes : List String := ["f", "s", "scp", "fcpr"]

/-! ## Aggregator: `count_users` and `get_unique_addresses` -/

/-- The mutable accumulators of `count_users` before the final collapse.
Python dicts with never-zero values are modelled as total functions with
`0` / `∅` meaning "key absent"; the sets are `Finset String`. -/
structure CountState where
  unique_users : Finset String
  unique_users_by_domain : String → Finset String
  users_by_domain : String → String → Nat
  successful_logins : Nat
  failed_logins : Nat
  password_changes : Nat
  successful_logins_by_domain : String → Nat
  failed_logins_by_domain : String → Nat
  password_changes_by_domain : String → Nat

/-- Python `d[k].add(v)` on a dict-of-sets (`unique_users_by_domain`). -/
def updInsert (m : String → Finset String) (k v : String) : String → Finset String :=
  fun x => if x = k then insert v (m x) else m x

/-- Python `d[k] = d.get(k, 0) + 1` on a dict-of-counters. -/
def bump (m : String → Nat) (k : String) : String → Nat :=
  fun x => if x = k then m x + 1 else m x

/-- Python `d[k]['emails'][v] = d[k]['emails'].get(v, 0) + 1`
(`users_by_domain` watched-domain detail). -/
def bump2 (m : String → String → Nat) (k v : String) : String → String → Nat :=
  fun x => if x = k then bump (m x) v else m x

/-- The body of the `for log in logs` loop of `count_users`, one record. -/
def count_users_step (watched_domains excluded_domains : List String)
    (st : CountState) (log : LogRecord) : CountState :=
  match log.user_name, log.type with
  | some user_email, some log_type =>
    if ¬ containsAmp user_email ∨ endsWithAmp user_email then st
    else
      let domain := emailDomain user_email
      if domain ∈ excluded_domains then st
      else
        let st1 := { st with
          unique_users := insert user_email st.unique_users,
          unique_users_by_domain := updInsert st.unique_users_by_domain domain user_email }
        let st2 :=
          if domain ∈ watched_domains then
            { st1 with users_by_domain := bump2 st1.users_by_domain domain user_email }
          else st1
        if log_type = "s" then
          { st2 with successful_logins := st2.successful_logins + 1,
                     successful_logins_by_domain := bump st2.successful_logins_by_domain domain }
        else if log_type = "f" then
          { st2 with failed_logins := st2.failed_logins + 1,
                     failed_logins_by_domain := bump st2.failed_logins_by_domain domain }
        else if log_type = "scp" ∨ log_type = "fcpr" then
          { st2 with password_changes := st2.password_changes + 1,
                     password_changes_by_domain := bump st2.password_changes_by_domain domain }
        else st2
  | _, _ => st

/-- The empty accumulators `count_users` starts from. -/
def initCountState : CountState :=
  { unique_users := ∅
    unique_users_by_domain := fun _ => ∅
    users_by_domain := fun _ _ => 0
    successful_logins := 0
    failed_logins := 0
    password_changes := 0
    successful_logins_by_domain := fun _ => 0
    failed_logins_by_domain := fun _ => 0
    password_changes_by_domain := fun _ => 0 }

/-- The 9-tuple `count_users` returns, after the final collapse
(`len(unique_users)`, per-domain set sizes). -/
structure AggregationResult where
  total_users : Nat
  unique_users_by_domain : String → Nat
  successful_logins : Nat
  successful_logins_by_domain : String → Nat
  failed_logins : Nat
  failed_logins_by_domain : String → Nat
  password_changes : Nat
  password_changes_by_domain : String → Nat
  users_by_watched_domain : String → String → Nat

/-- Python `count_users(logs, watched_domains)`; the module constant
`EXCLUDED_DOMAINS` is the explicit `excluded_domains` parameter. -/
def count_users (logs : List LogRecord) (watched_domains excluded_domains : List String) :
    AggregationResult :=
  let st := logs.foldl (count_users_step watched_domains excluded_domains) initCountState
  { total_users := st.unique_users.card
    unique_users_by_domain := fun d => (st.unique_users_by_domain d).card
    successful_logins := st.successful_logins
    successful_logins_by_domain := st.successful_logins_by_domain
    failed_logins := st.failed_logins
    failed_logins_by_domain := st.failed_logins_by_domain
    password_changes := st.password_changes
    password_changes_by_domain := st.password_changes_by_domain
    users_by_watched_domain := st.users_by_domain }

/-- The body of the `for log in logs` loop of `get_unique_addresses`:
a record whose `user_name` key is absent raises `KeyError`, caught and
skipped (`none` branch); note the loop never reads the `type` field. -/
def get_unique_addresses_step (excluded_domains : List String)
    (acc : Finset String) (log : LogRecord) : Finset String :=
  match log.user_name with
  | none => acc
  | some user_email =>
    if ¬ containsAmp user_email ∨ endsWithAmp user_email then acc
    else if emailDomain user_email ∈ excluded_domains then acc
    else insert user_email acc

/-- Python `get_unique_addresses(logs)` (the `unique_addresses` set it
builds); `EXCLUDED_DOMAINS` is the explicit `excluded_domains` parameter. -/
def get_unique_addresses (excluded_domains : List String) (logs : List LogRecord) :
    Finset String :=
  logs.foldl (get_unique_addresses_step excluded_domains) ∅

/-! ## Retriever: `daterange` and `get_logs` (bounded-range branch) -/

/-- Python `daterange(start_date, end_date)`: the days
`start_date + n` for `n in range(int((end_date - start_date).days))`.
Days are integers (days since an arbitrary epoch). -/
def daterange (start_date end_date : Int) : List Int :=
  (List.range (end_date - start_date).toNat).map (fun n => start_date + n)

/-- One backend answer to `table.query(...)`: a page of items with an
optional `LastEvaluatedKey`, a `ProvisionedThroughputExceededException`,
or any other `ClientError` (carrying its error code). -/
inductive QueryOutcome where
  | ok (items : List LogRecord) (lastEvaluatedKey : Option Nat)
  | throttled
  | failed (code : String)
deriving DecidableEq, Repr

/-- A fatal error escaping `get_logs`: the `TimeoutError` raised on budget
exhaustion (naming the day being processed), a re-raised non-throttling
`ClientError`, or the `KeyError` from an item missing `data`/`type`. -/
inductive Fatal where
  | timeout (day : Int)
  | clientError (code : String)
  | keyError
deriving DecidableEq, Repr

/-- Observable external actions of `get_logs`, in program order: each
`table.query` call (day and `ExclusiveStartKey`) and each `time.sleep`. -/
inductive TraceEv where
  | query (day : Int) (exclusiveStartKey : Option Nat)
  | sleep (seconds : Nat)
deriving DecidableEq, Repr

/-- The day-partitioned store plus the wall clock, as a deterministic
oracle over a caller-chosen state type `σ`.  `query` answers one
`table.query` call and advances the state; `elapse` is the value of
`time.time() - start_time` read at a given state; `sleep` is the state
change caused by `time.sleep`. -/
structure Backend (σ : Type) where
  query : σ → Int → Option Nat → QueryOutcome × σ
  elapse : σ → Nat
  sleep : σ → Nat → σ

/-- Result of the whole retrieval: Python's return value, an uncaught
exception, or exhaustion of the interpreter's pagination fuel (a model
artifact: the Python `while` loop would still be running). -/
inductive RetOut where
  | ok (logs : List LogRecord)
  | fatal (e : Fatal)
  | noFuel
deriving DecidableEq, Repr

/-- Python `for item in response['Items']: if item['data']['type'] in
['f','s','scp','fcpr']: logs.append(item)`.  A missing `type` key raises
`KeyError` (not a `ClientError`, hence fatal). -/
def filterItems : List LogRecord → Except Fatal (List LogRecord)
  | [] => .ok []
  | item :: rest =>
    match item.type with
    | none => .error .keyError
    | some t =>
      if t ∈ interestingTypes then
        match filterItems rest with
        | .ok keep => .ok (item :: keep)
        | .error e => .error e
      else filterItems rest

/-- How one day's `try` block ends: `break` reached, the `for i` attempt
loop exhausted (Python then falls through to the next day), an uncaught
exception, or pagination fuel ran out. -/
inductive DayOutcome where
  | dayDone
  | exhausted
  | fatalErr (e : Fatal)
  | noFuelD
deriving DecidableEq, Repr

/-- How the `while 'LastEvaluatedKey' in response` loop ends within one
attempt: normally, by a caught throttling `ClientError`, by an uncaught
exception, or by fuel exhaustion. -/
inductive PageOutcome where
  | done
  | throttle
  | fatalErr (e : Fatal)
  | noFuel
deriving DecidableEq, Repr

/-- The `while 'LastEvaluatedKey' in response` loop of `get_logs`: re-query
with `ExclusiveStartKey`, filter-append the page's items, then check the
elapsed wall clock against `TIMEOUT_SECONDS` (raising `TimeoutError` naming
the day); repeat while a `LastEvaluatedKey` remains.  `fuel` bounds the
number of iterations the model will run. -/
def pagesLoop {σ : Type} (B : Backend σ) (day : Int) :
    Nat → Nat → List LogRecord → σ → List TraceEv →
    List LogRecord × σ × List TraceEv × PageOutcome
  | 0, _, logs, s, tr => (logs, s, tr, .noFuel)
  | fuel + 1, lek, logs, s, tr =>
    match B.query s day (some lek) with
    | (.throttled, s1) => (logs, s1, tr ++ [.query day (some lek)], .throttle)
    | (.failed code, s1) =>
      (logs, s1, tr ++ [.query day (some lek)], .fatalErr (.clientError code))
    | (.ok items lek1, s1) =>
      match filterItems items with
      | .error e => (logs, s1, tr ++ [.query day (some lek)], .fatalErr e)
      | .ok keep =>
        if B.elapse s1 > TIMEOUT_SECONDS then
          (logs ++ keep, s1, tr ++ [.query day (some lek)], .fatalErr (.timeout day))
        else
          match lek1 with
          | none => (logs ++ keep, s1, tr ++ [.query day (some lek)], .done)
          | some k => pagesLoop B day fuel k (logs ++ keep) s1 (tr ++ [.query day (some lek)])

/-- The `for i in range(10)` retry loop of `get_logs` for one day:
issue the day's first-page query (no timeout check precedes it), filter
its items, then run the pagination loop; on a throttling `ClientError`
sleep `2 ** i` seconds and start the next attempt from the first page,
keeping every record already appended; on any other `ClientError`
re-raise; when the attempt list is exhausted fall through to the next day
(Python's `for` loop simply ends). -/
def attemptLoop {σ : Type} (B : Backend σ) (day : Int) (fuel : Nat) :
    List Nat → List LogRecord → σ → List TraceEv →
    List LogRecord × σ × List TraceEv × DayOutcome
  | [], logs, s, tr => (logs, s, tr, .exhausted)
  | i :: rest, logs, s, tr =>
    match B.query s day none with
    | (.throttled, s1) =>
      attemptLoop B day fuel rest logs (B.sleep s1 (2 ^ i))
        (tr ++ [.query day none] ++ [.sleep (2 ^ i)])
    | (.failed code, s1) =>
      (logs, s1, tr ++ [.query day none], .fatalErr (.clientError code))
    | (.ok items lek, s1) =>
      match filterItems items with
      | .error e => (logs, s1, tr ++ [.query day none], .fatalErr e)
      | .ok keep =>
        match lek with
        | none => (logs ++ keep, s1, tr ++ [.query day none], .dayDone)
        | some k =>
          match pagesLoop B day fuel k (logs ++ keep) s1 (tr ++ [.query day none]) with
          | (logs2, s2, tr2, .done) => (logs2, s2, tr2, .dayDone)
          | (logs2, s2, tr2, .fatalErr e) => (logs2, s2, tr2, .fatalErr e)
          | (logs2, s2, tr2, .noFuel) => (logs2, s2, tr2, .noFuelD)
          | (logs2, s2, tr2, .throttle) =>
            attemptLoop B day fuel rest logs2 (B.sleep s2 (2 ^ i)) (tr2 ++ [.sleep (2 ^ i)])

/-- The `for single_date in daterange(...)` loop of `get_logs`. -/
def daysLoop {σ : Type} (B : Backend σ) (fuel : Nat) :
    List Int → List LogRecord → σ → List TraceEv → RetOut × List TraceEv
  | [], logs, _, tr => (.ok logs, tr)
  | d :: rest, logs, s, tr =>
    match attemptLoop B d fuel (List.range 10) logs s tr with
    | (logs1, s1, tr1, .dayDone) => daysLoop B fuel rest logs1 s1 tr1
    | (logs1, s1, tr1, .exhausted) => daysLoop B fuel rest logs1 s1 tr1
    | (_, _, tr1, .fatalErr e) => (.fatal e, tr1)
    | (_, _, tr1, .noFuelD) => (.noFuel, tr1)

/-- Python `get_logs(start_date, end_date)` with both dates provided (the
bounded-range branch): iterate `daterange`, with `logs = []` and
`start_time = time.time()` (the backend state `s0` embodies the clock
started at that moment).  Returns the result together with the trace of
backend calls and sleeps. -/
def get_logs {σ : Type} (B : Backend σ) (s0 : σ) (start_date end_date : Int)
    (fuel : Nat) : RetOut × List TraceEv :=
  daysLoop B fuel (daterange start_date end_date) [] s0 []

/-! ## Concrete simulated backends and records -/

/-- A success-login record for `a@x.com`. -/
def recA : LogRecord := ⟨some "a@x.com", some "s"⟩

/-- A failed-login record for `b@x.com`. -/
def recB : LogRecord := ⟨some "b@x.com", some "f"⟩

/-- A backend that answers every query with
`ProvisionedThroughputExceededException`; the clock never advances. -/
def alwaysThrottle : Backend Unit :=
  { query := fun s _ _ => (.throttled, s)
    elapse := fun _ => 0
    sleep := fun s _ => s }

/-- A backend (state = number of calls so far) whose day has two pages:
the first call returns page one (`recA`, continuation key 1), the second
call — the continuation-page request — throttles once, and subsequent
calls serve both pages normally. -/
def midThrottle : Backend Nat :=
  { query := fun n _ _ =>
      (if n = 0 then .ok [recA] (some 1)
       else if n = 1 then .throttled
       else if n = 2 then .ok [recA] (some 1)
       else if n = 3 then .ok [recB] none
       else .ok [] none, n + 1)
    elapse := fun _ => 0
    sleep := fun n _ => n }

/-- A backend that fails every query with a non-throttling `ClientError`
(code `AccessDeniedException`). -/
def alwaysFail : Backend Unit :=
  { query := fun s _ _ => (.failed "AccessDeniedException", s)
    elapse := fun _ => 0
    sleep := fun s _ => s }

/-- A backend on which the retrieval budget is already exceeded before the
first page is fetched (`elapse` is constantly 5000 > 900), and every day
is a single unpaginated page containing `recA`. -/
def lateClock : Backend Unit :=
  { query := fun s _ _ => (.ok [recA] none, s)
    elapse := fun _ => 5000
    sleep := fun s _ => s }

/-- A backend whose state is the wall clock (seconds since retrieval
start): querying day 0 costs 800 seconds and returns one empty page;
day 1 has two pages (`recA` then `recB`) costing 60 seconds each. -/
def accumClock : Backend Nat :=
  { query := fun t day k =>
      if day = 0 then (.ok [] none, t + 800)
      else match k with
        | none => (.ok [recA] (some 1), t + 60)
        | some _ => (.ok [recB] none, t + 60)
    elapse := fun t => t
    sleep := fun t d => t + d }

/-- A backend with no data at all: every query returns one empty final page. -/
def emptyBackend : Backend Unit :=
  { query := fun s _ _ => (.ok [] none, s)
    elapse := fun _ => 0
    sleep := fun s _ => s }

/-! ## Classifier view of the aggregation step -/

/-- The data `count_users` extracts from one record, when the record is
not skipped: its identifier and event type.  `none` exactly when the
record is skipped (a field absent, malformed identifier, or excluded
domain). -/
def classify (excluded_domains : List String) (r : LogRecord) : Option (String × String) :=
  match r.user_name, r.type with
  | some e, some t =>
    if containsAmp e ∧ ¬ endsWithAmp e ∧ emailDomain e ∉ excluded_domains
    then some (e, t) else none
  | _, _ => none

/-- The effect of `count_users_step` on a record that is not skipped,
as a function of the extracted identifier `e` and event type `t`. -/
def applyHit (watched_domains : List String) (st : CountState) (e t : String) : CountState :=
  let domain := emailDomain e
  let st1 := { st with
    unique_users := insert e st.unique_users,
    unique_users_by_domain := updInsert st.unique_users_by_domain domain e }
  let st2 :=
    if domain ∈ watched_domains then
      { st1 with users_by_domain := bump2 st1.users_by_domain domain e }
    else st1
  if t = "s" then
    { st2 with successful_logins := st2.successful_logins + 1,
               successful_logins_by_domain := bump st2.successful_logins_by_domain domain }
  else if t = "f" then
    { st2 with failed_logins := st2.failed_logins + 1,
               failed_logins_by_domain := bump st2.failed_logins_by_domain domain }
  else if t = "scp" ∨ t = "fcpr" then
    { st2 with password_changes := st2.password_changes + 1,
               password_changes_by_domain := bump st2.password_changes_by_domain domain }
  else st2

/-- `count_users_step` factors through `classify`: skipped records leave
the state unchanged, all others act via `applyHit`. -/
theorem count_users_step_eq (w ex : List String) (st : CountState) (r : LogRecord) :
    count_users_step w ex st r =
      match classify ex r with
      | some (e, t) => applyHit w st e t
      | none => st := by
  cases hu : r.user_name with
  | none => simp [count_users_step, classify, hu]
  | some e =>
    cases ht : r.type with
    | none => simp [count_users_step, classify, hu, ht]
    | some t =>
      by_cases h1 : containsAmp e
      · by_cases h2 : endsWithAmp e
        · simp [count_users_step, classify, hu, ht, h1, h2]
        · by_cases h3 : emailDomain e ∈ ex
          · simp [count_users_step, classify, hu, ht, h1, h2, h3]
          · simp [count_users_step, classify, applyHit, hu, ht, h1, h2, h3]
      · simp [count_users_step, classify, hu, ht, h1]

theorem applyHit_unique_users (w : List String) (st : CountState) (e t : String) :
    (applyHit w st e t).unique_users = insert e st.unique_users := by
  simp only [applyHit]; split_ifs <;> rfl

theorem applyHit_uubd (w : List String) (st : CountState) (e t : String) :
    (applyHit w st e t).unique_users_by_domain
      = updInsert st.unique_users_by_domain (emailDomain e) e := by
  simp only [applyHit]; split_ifs <;> rfl

theorem applyHit_detail (w : List String) (st : CountState) (e t : String) :
    (applyHit w st e t).users_by_domain
      = if emailDomain e ∈ w then bump2 st.users_by_domain (emailDomain e) e
        else st.users_by_domain := by
  simp only [applyHit]; split_ifs <;> rfl

theorem applyHit_succ (w : List String) (st : CountState) (e t : String) :
    (applyHit w st e t).successful_logins
      = st.successful_logins + (if t = "s" then 1 else 0) := by
  simp only [applyHit]; split_ifs <;> simp_all

theorem applyHit_succd (w : List String) (st : CountState) (e t : String) :
    (applyHit w st e t).successful_logins_by_domain
      = if t = "s" then bump st.successful_logins_by_domain (emailDomain e)
        else st.successful_logins_by_domain := by
  simp only [applyHit]; split_ifs <;> simp_all

theorem applyHit_fail (w : List String) (st : CountState) (e t : String) :
    (applyHit w st e t).failed_logins
      = st.failed_logins + (if t = "f" then 1 else 0) := by
  simp only [applyHit]; split_ifs <;> simp_all

theorem applyHit_faild (w : List String) (st : CountState) (e t : String) :
    (applyHit w st e t).failed_logins_by_domain
      = if t = "f" then bump st.failed_logins_by_domain (emailDomain e)
        else st.failed_logins_by_domain := by
  simp only [applyHit]; split_ifs <;> simp_all

theorem applyHit_pass (w : List String) (st : CountState) (e t : String) :
    (applyHit w st e t).password_changes
      = st.password_changes + (if t = "scp" ∨ t = "fcpr" then 1 else 0) := by
  simp only [applyHit]; split_ifs <;> simp_all

theorem applyHit_passd (w : List String) (st : CountState) (e t : String) :
    (applyHit w st e t).password_changes_by_domain
      = if t = "scp" ∨ t = "fcpr" then bump st.password_changes_by_domain (emailDomain e)
        else st.password_changes_by_domain := by
  simp only [applyHit]; split_ifs <;> simp_all

/-! ## Characterization of the aggregation fold -/

theorem foldl_unique_users (w ex : List String) (logs : List LogRecord) :
    ∀ st : CountState,
      (logs.foldl (count_users_step w ex) st).unique_users
        = st.unique_users ∪ ((logs.filterMap (classify ex)).map Prod.fst).toFinset := by
  induction logs with
  | nil => intro st; simp
  | cons r l ih =>
    intro st
    rw [List.foldl_cons, ih, count_users_step_eq]
    cases hc : classify ex r with
    | none => simp [List.filterMap_cons, hc]
    | some p =>
      obtain ⟨e, t⟩ := p
      simp [List.filterMap_cons, hc, applyHit_unique_users,
        Finset.insert_union, Finset.union_insert]

theorem foldl_uubd (w ex : List String) (logs : List LogRecord) :
    ∀ (st : CountState) (d : String),
      (logs.foldl (count_users_step w ex) st).unique_users_by_domain d
        = st.unique_users_by_domain d
          ∪ (((logs.filterMap (classify ex)).map Prod.fst).filter
              (fun s => emailDomain s == d)).toFinset := by
  induction logs with
  | nil => intro st d; simp
  | cons r l ih =>
    intro st d
    rw [List.foldl_cons, ih, count_users_step_eq]
    cases hc : classify ex r with
    | none => simp [List.filterMap_cons, hc]
    | some p =>
      obtain ⟨e, t⟩ := p
      by_cases hd : emailDomain e = d
      · subst hd
        simp [List.filterMap_cons, hc, applyHit_uubd, updInsert,
          Finset.insert_union, Finset.union_insert]
      · have hd2 : ¬ d = emailDomain e := fun h => hd h.symm
        simp [List.filterMap_cons, hc, applyHit_uubd, updInsert, hd, hd2]

theorem foldl_succ (w ex : List String) (logs : List LogRecord) :
    ∀ st : CountState,
      (logs.foldl (count_users_step w ex) st).successful_logins
        = st.successful_logins
          + (logs.filterMap (classify ex)).countP (fun q => q.2 == "s") := by
  induction logs with
  | nil => intro st; simp
  | cons r l ih =>
    intro st
    rw [List.foldl_cons, ih, count_users_step_eq]
    cases hc : classify ex r with
    | none => simp [List.filterMap_cons, hc]
    | some p =>
      obtain ⟨e, t⟩ := p
      by_cases h1 : t = "s" <;>
        simp [List.filterMap_cons, hc, List.countP_cons, applyHit_succ, h1] <;>
        omega

theorem foldl_succd (w ex : List String) (logs : List LogRecord) :
    ∀ (st : CountState) (d : String),
      (logs.foldl (count_users_step w ex) st).successful_logins_by_domain d
        = st.successful_logins_by_domain d
          + (logs.filterMap (classify ex)).countP
              (fun q => q.2 == "s" && emailDomain q.1 == d) := by
  induction logs with
  | nil => intro st d; simp
  | cons r l ih =>
    intro st d
    rw [List.foldl_cons, ih, count_users_step_eq]
    cases hc : classify ex r with
    | none => simp [List.filterMap_cons, hc]
    | some p =>
      obtain ⟨e, t⟩ := p
      by_cases h2 : emailDomain e = d
      · subst h2
        by_cases h1 : t = "s" <;>
          simp [List.filterMap_cons, hc, List.countP_cons, applyHit_succd, h1, bump] <;>
          omega
      · have h2s : ¬ d = emailDomain e := fun h => h2 h.symm
        by_cases h1 : t = "s" <;>
          simp [List.filterMap_cons, hc, List.countP_cons, applyHit_succd, h1, h2, h2s, bump] <;>
          omega

theorem foldl_fail (w ex : List String) (logs : List LogRecord) :
    ∀ st : CountState,
      (logs.foldl (count_users_step w ex) st).failed_logins
        = st.failed_logins
          + (logs.filterMap (classify ex)).countP (fun q => q.2 == "f") := by
  induction logs with
  | nil => intro st; simp
  | cons r l ih =>
    intro st
    rw [List.foldl_cons, ih, count_users_step_eq]
    cases hc : classify ex r with
    | none => simp [List.filterMap_cons, hc]
    | some p =>
      obtain ⟨e, t⟩ := p
      by_cases h1 : t = "f" <;>
        simp [List.filterMap_cons, hc, List.countP_cons, applyHit_fail, h1] <;>
        omega

theorem foldl_faild (w ex : List String) (logs : List LogRecord) :
    ∀ (st : CountState) (d : String),
      (logs.foldl (count_users_step w ex) st).failed_logins_by_domain d
        = st.failed_logins_by_domain d
          + (logs.filterMap (classify ex)).countP
              (fun q => q.2 == "f" && emailDomain q.1 == d) := by
  induction logs with
  | nil => intro st d; simp
  | cons r l ih =>
    intro st d
    rw [List.foldl_cons, ih, count_users_step_eq]
    cases hc : classify ex r with
    | none => simp [List.filterMap_cons, hc]
    | some p =>
      obtain ⟨e, t⟩ := p
      by_cases h2 : emailDomain e = d
      · subst h2
        by_cases h1 : t = "f" <;>
          simp [List.filterMap_cons, hc, List.countP_cons, applyHit_faild, h1, bump] <;>
          omega
      · have h2s : ¬ d = emailDomain e := fun h => h2 h.symm
        by_cases h1 : t = "f" <;>
          simp [List.filterMap_cons, hc, List.countP_cons, applyHit_faild, h1, h2, h2s, bump] <;>
          omega

theorem foldl_pass (w ex : List String) (logs : List LogRecord) :
    ∀ st : CountState,
      (logs.foldl (count_users_step w ex) st).password_changes
        = st.password_changes
          + (logs.filterMap (classify ex)).countP
              (fun q => q.2 == "scp" || q.2 == "fcpr") := by
  induction logs with
  | nil => intro st; simp
  | cons r l ih =>
    intro st
    rw [List.foldl_cons, ih, count_users_step_eq]
    cases hc : classify ex r with
    | none => simp [List.filterMap_cons, hc]
    | some p =>
      obtain ⟨e, t⟩ := p
      by_cases h1 : t = "scp" <;> by_cases h2 : t = "fcpr" <;>
        simp [List.filterMap_cons, hc, List.countP_cons, applyHit_pass, h1, h2] <;>
        omega

theorem foldl_passd (w ex : List String) (logs : List LogRecord) :
    ∀ (st : CountState) (d : String),
      (logs.foldl (count_users_step w ex) st).password_changes_by_domain d
        = st.password_changes_by_domain d
          + (logs.filterMap (classify ex)).countP
              (fun q => (q.2 == "scp" || q.2 == "fcpr") && emailDomain q.1 == d) := by
  induction logs with
  | nil => intro st d; simp
  | cons r l ih =>
    intro st d
    rw [List.foldl_cons, ih, count_users_step_eq]
    cases hc : classify ex r with
    | none => simp [List.filterMap_cons, hc]
    | some p =>
      obtain ⟨e, t⟩ := p
      by_cases hd : emailDomain e = d
      · subst hd
        by_cases h1 : t = "scp" <;> by_cases h2 : t = "fcpr" <;>
          simp [List.filterMap_cons, hc, List.countP_cons, applyHit_passd, h1, h2, bump] <;>
          omega
      · have hd2 : ¬ d = emailDomain e := fun h => hd h.symm
        by_cases h1 : t = "scp" <;> by_cases h2 : t = "fcpr" <;>
          simp [List.filterMap_cons, hc, List.countP_cons, applyHit_passd, h1, h2, hd, hd2, bump] <;>
          omega

theorem foldl_detail (w ex : List String) (logs : List LogRecord) :
    ∀ (st : CountState) (d e : String),
      (logs.foldl (count_users_step w ex) st).users_by_domain d e
        = st.users_by_domain d e
          + (if d ∈ w ∧ emailDomain e = d
             then (logs.filterMap (classify ex)).countP (fun q => q.1 == e) else 0) := by
  induction logs with
  | nil => intro st d e; simp
  | cons r l ih =>
    intro st d e
    rw [List.foldl_cons, ih, count_users_step_eq]
    cases hc : classify ex r with
    | none => simp [List.filterMap_cons, hc]
    | some p =>
      obtain ⟨e1, t⟩ := p
      by_cases hee : e = e1
      · subst hee
        by_cases hde : emailDomain e = d
        · subst hde
          by_cases hw : emailDomain e ∈ w <;>
            simp [List.filterMap_cons, hc, List.countP_cons, applyHit_detail, hw,
              bump2, bump] <;>
            omega
        · have hde2 : ¬ d = emailDomain e := fun h => hde h.symm
          by_cases hw : emailDomain e ∈ w <;>
            simp [List.filterMap_cons, hc, List.countP_cons, applyHit_detail, hw,
              hde, hde2, bump2, bump] <;>
            omega
      · have hee2 : ¬ e1 = e := fun h => hee h.symm
        by_cases hw : emailDomain e1 ∈ w <;>
          simp [List.filterMap_cons, hc, List.countP_cons, applyHit_detail, hw,
            hee, hee2, bump2, bump, ite_apply] <;>
          omega

/-! ## Final-field characterizations of `count_users` and
`get_unique_addresses` -/

theorem count_users_total_eq (logs : List LogRecord) (w ex : List String) :
    (count_users logs w ex).total_users
      = ((logs.filterMap (classify ex)).map Prod.fst).toFinset.card := by
  simp [count_users, foldl_unique_users, initCountState]

theorem count_users_uubd_eq (logs : List LogRecord) (w ex : List String) (d : String) :
    (count_users logs w ex).unique_users_by_domain d
      = (((logs.filterMap (classify ex)).map Prod.fst).filter
          (fun s => emailDomain s == d)).toFinset.card := by
  simp [count_users, foldl_uubd, initCountState]

theorem count_users_succ_eq (logs : List LogRecord) (w ex : List String) :
    (count_users logs w ex).successful_logins
      = (logs.filterMap (classify ex)).countP (fun q => q.2 == "s") := by
  simp [count_users, foldl_succ, initCountState]

theorem count_users_succd_eq (logs : List LogRecord) (w ex : List String) (d : String) :
    (count_users logs w ex).successful_logins_by_domain d
      = (logs.filterMap (classify ex)).countP
          (fun q => q.2 == "s" && emailDomain q.1 == d) := by
  simp [count_users, foldl_succd, initCountState]

theorem count_users_fail_eq (logs : List LogRecord) (w ex : List String) :
    (count_users logs w ex).failed_logins
      = (logs.filterMap (classify ex)).countP (fun q => q.2 == "f") := by
  simp [count_users, foldl_fail, initCountState]

theorem count_users_faild_eq (logs : List LogRecord) (w ex : List String) (d : String) :
    (count_users logs w ex).failed_logins_by_domain d
      = (logs.filterMap (classify ex)).countP
          (fun q => q.2 == "f" && emailDomain q.1 == d) := by
  simp [count_users, foldl_faild, initCountState]

theorem count_users_pass_eq (logs : List LogRecord) (w ex : List String) :
    (count_users logs w ex).password_changes
      = (logs.filterMap (classify ex)).countP
          (fun q => q.2 == "scp" || q.2 == "fcpr") := by
  simp [count_users, foldl_pass, initCountState]

theorem count_users_passd_eq (logs : List LogRecord) (w ex : List String) (d : String) :
    (count_users logs w ex).password_changes_by_domain d
      = (logs.filterMap (classify ex)).countP
          (fun q => (q.2 == "scp" || q.2 == "fcpr") && emailDomain q.1 == d) := by
  simp [count_users, foldl_passd, initCountState]

theorem count_users_detail_eq (logs : List LogRecord) (w ex : List String) (d e : String) :
    (count_users logs w ex).users_by_watched_domain d e
      = (if d ∈ w ∧ emailDomain e = d
         then (logs.filterMap (classify ex)).countP (fun q => q.1 == e) else 0) := by
  simp [count_users, foldl_detail, initCountState]

/-- The identifier `get_unique_addresses` extracts from one record
(`none` when the record is skipped).  Unlike `classify`, the event-type
field is never consulted. -/
def uaEmail (excluded_domains : List String) (r : LogRecord) : Option String :=
  match r.user_name with
  | some e =>
    if containsAmp e ∧ ¬ endsWithAmp e ∧ emailDomain e ∉ excluded_domains
    then some e else none
  | none => none

/-- The `get_unique_addresses` loop body factors through `uaEmail`. -/
theorem get_unique_addresses_step_eq (ex : List String) (acc : Finset String)
    (r : LogRecord) :
    get_unique_addresses_step ex acc r =
      match uaEmail ex r with
      | some e => insert e acc
      | none => acc := by
  cases hu : r.user_name with
  | none => simp [get_unique_addresses_step, uaEmail, hu]
  | some e =>
    by_cases h1 : containsAmp e
    · by_cases h2 : endsWithAmp e
      · simp [get_unique_addresses_step, uaEmail, hu, h1, h2]
      · by_cases h3 : emailDomain e ∈ ex
        · simp [get_unique_addresses_step, uaEmail, hu, h1, h2, h3]
        · simp [get_unique_addresses_step, uaEmail, hu, h1, h2, h3]
    · simp [get_unique_addresses_step, uaEmail, hu, h1]

theorem get_unique_addresses_eq (ex : List String) (logs : List LogRecord) :
    get_unique_addresses ex logs = (logs.filterMap (uaEmail ex)).toFinset := by
  have key : ∀ acc : Finset String,
      logs.foldl (get_unique_addresses_step ex) acc
        = acc ∪ (logs.filterMap (uaEmail ex)).toFinset := by
    induction logs with
    | nil => intro acc; simp
    | cons r l ih =>
      intro acc
      rw [List.foldl_cons, ih, get_unique_addresses_step_eq]
      cases hc : uaEmail ex r with
      | none => simp [List.filterMap_cons, hc]
      | some e =>
        simp [List.filterMap_cons, hc, Finset.insert_union, Finset.union_insert]
  simpa [get_unique_addresses] using key ∅

/-- When a record that has an identifier also has an event type,
`get_unique_addresses` and `count_users` extract the same identifier. -/
theorem uaEmail_eq_classify (ex : List String) (r : LogRecord)
    (h : r.user_name.isSome → r.type.isSome) :
    uaEmail ex r = (classify ex r).map Prod.fst := by
  cases hu : r.user_name with
  | none => simp [uaEmail, classify, hu]
  | some e =>
    cases ht : r.type with
    | none => simp [hu, ht] at h
    | some t =>
      by_cases hv : containsAmp e ∧ ¬ endsWithAmp e ∧ emailDomain e ∉ ex <;>
        simp [uaEmail, classify, hu, ht, hv]

/-! ## Retrieval invariants -/

/-- A record whose event type is among the types of interest. -/
def typeInteresting (r : LogRecord) : Bool :=
  match r.type with
  | some t => decide (t ∈ interestingTypes)
  | none => false

theorem filterItems_all {items keep : List LogRecord}
    (h : filterItems items = .ok keep) : keep.all typeInteresting = true := by
  induction items generalizing keep with
  | nil =>
    simp only [filterItems] at h
    cases h; rfl
  | cons it rest ih =>
    cases ht : it.type with
    | none => simp [filterItems, ht] at h
    | some t =>
      by_cases hm : t ∈ interestingTypes
      · simp only [filterItems, ht, if_pos hm] at h
        cases hk : filterItems rest with
        | ok keep2 =>
          rw [hk] at h
          cases h
          simp [List.all_cons, typeInteresting, ht, hm, ih hk]
        | error e => rw [hk] at h; cases h
      · simp only [filterItems, ht, if_neg hm] at h
        exact ih h

theorem pagesLoop_all {σ : Type} (B : Backend σ) (day : Int) :
    ∀ (fuel lek : Nat) (logs : List LogRecord) (s : σ) (tr : List TraceEv),
      logs.all typeInteresting = true →
      (pagesLoop B day fuel lek logs s tr).1.all typeInteresting = true := by
  intro fuel
  induction fuel with
  | zero => intro lek logs s tr h; exact h
  | succ n ih =>
    intro lek logs s tr h
    cases hq : B.query s day (some lek) with
    | mk out s1 =>
      cases out with
      | throttled => simp [pagesLoop, hq, h]
      | failed code => simp [pagesLoop, hq, h]
      | ok items lek1 =>
        cases hf : filterItems items with
        | error e => simp [pagesLoop, hq, hf, h]
        | ok keep =>
          have hkeep : (logs ++ keep).all typeInteresting = true := by
            simp [List.all_append, h, filterItems_all hf]
          by_cases he : B.elapse s1 > TIMEOUT_SECONDS
          · simp [pagesLoop, hq, hf, he, hkeep]
          · cases lek1 with
            | none => simp [pagesLoop, hq, hf, he, hkeep]
            | some k => simpa [pagesLoop, hq, hf, he] using ih k (logs ++ keep) s1 _ hkeep

theorem attemptLoop_all {σ : Type} (B : Backend σ) (day : Int) (fuel : Nat) :
    ∀ (attempts : List Nat) (logs : List LogRecord) (s : σ) (tr : List TraceEv),
      logs.all typeInteresting = true →
      (attemptLoop B day fuel attempts logs s tr).1.all typeInteresting = true := by
  intro attempts
  induction attempts with
  | nil => intro logs s tr h; exact h
  | cons i rest ih =>
    intro logs s tr h
    cases hq : B.query s day none with
    | mk out s1 =>
      cases out with
      | throttled => simpa [attemptLoop, hq] using ih logs (B.sleep s1 (2 ^ i)) _ h
      | failed code => simp [attemptLoop, hq, h]
      | ok items lek =>
        cases hf : filterItems items with
        | error e => simp [attemptLoop, hq, hf, h]
        | ok keep =>
          have hkeep : (logs ++ keep).all typeInteresting = true := by
            simp [List.all_append, h, filterItems_all hf]
          cases lek with
          | none => simp [attemptLoop, hq, hf, hkeep]
          | some k =>
            have hp := pagesLoop_all B day fuel k (logs ++ keep) s1
              (tr ++ [.query day none]) hkeep
            cases hpl : pagesLoop B day fuel k (logs ++ keep) s1 (tr ++ [.query day none]) with
            | mk logs2 rest2 =>
              obtain ⟨s2, tr2, out2⟩ := rest2
              rw [hpl] at hp
              cases out2 <;> simp only [attemptLoop, hq, hf, hpl] <;>
                first
                | exact hp
                | exact ih logs2 (B.sleep s2 (2 ^ i)) _ hp

theorem daysLoop_all {σ : Type} (B : Backend σ) (fuel : Nat) :
    ∀ (days : List Int) (logs0 : List LogRecord) (s : σ) (tr : List TraceEv)
      (logs : List LogRecord),
      logs0.all typeInteresting = true →
      (daysLoop B fuel days logs0 s tr).1 = .ok logs →
      logs.all typeInteresting = true := by
  intro days
  induction days with
  | nil =>
    intro logs0 s tr logs h hok
    simp only [daysLoop] at hok
    cases hok
    exact h
  | cons d rest ih =>
    intro logs0 s tr logs h hok
    have ha := attemptLoop_all B d fuel (List.range 10) logs0 s tr h
    simp only [daysLoop] at hok
    cases hal : attemptLoop B d fuel (List.range 10) logs0 s tr with
    | mk logs1 rest1 =>
      obtain ⟨s1, tr1, out1⟩ := rest1
      rw [hal] at hok ha
      cases out1 <;> simp at hok <;> try exact ih logs1 s1 tr1 logs ha hok

/-! ## Domain-partition lemmas -/

attribute [ext] AggregationResult

/-- The set of email domains occurring among the records `count_users`
does not skip. -/
def presentDomains (ex : List String) (logs : List LogRecord) : Finset String :=
  ((logs.filterMap (classify ex)).map (fun q => emailDomain q.1)).toFinset

theorem list_toFinset_map (l : List String) (f : String → String) :
    (l.map f).toFinset = l.toFinset.image f := by
  induction l with
  | nil => simp
  | cons a l ih => simp [ih]

theorem sum_countP_by_domain (H : List (String × String)) (p : String → Bool)
    (S : Finset String) (hS : ∀ q ∈ H, emailDomain q.1 ∈ S) :
    ∑ d ∈ S, H.countP (fun q => p q.2 && emailDomain q.1 == d)
      = H.countP (fun q => p q.2) := by
  induction H with
  | nil => simp
  | cons q l ih =>
    have hq : emailDomain q.1 ∈ S := hS q (List.mem_cons_self q l)
    have hl : ∀ x ∈ l, emailDomain x.1 ∈ S := fun x hx => hS x (List.mem_cons_of_mem q hx)
    simp only [List.countP_cons]
    rw [Finset.sum_add_distrib, ih hl]
    congr 1
    by_cases hp : p q.2 = true
    · have hpt : ∀ d ∈ S,
          (if (p q.2 && (emailDomain q.1 == d)) = true then 1 else 0)
            = if d = emailDomain q.1 then (fun _ => 1) d else 0 := by
        intro d _
        by_cases hd : d = emailDomain q.1
        · simp [hp, hd]
        · have hd2 : ¬ emailDomain q.1 = d := fun h => hd h.symm
          simp [hp, hd, hd2]
      rw [Finset.sum_congr rfl hpt, Finset.sum_ite_eq' S (emailDomain q.1) (fun _ => 1)]
      simp [hq, hp]
    · simp [hp]

theorem card_eq_sum_filter_card (T : Finset String) (S : Finset String)
    (hS : ∀ e ∈ T, emailDomain e ∈ S) :
    T.card = ∑ d ∈ S, (T.filter (fun e => emailDomain e = d)).card := by
  rw [Finset.card_eq_sum_card_image emailDomain T]
  apply Finset.sum_subset
  · intro d hd
    obtain ⟨e, he, rfl⟩ := Finset.mem_image.mp hd
    exact hS e he
  · intro d _ hd
    rw [Finset.card_eq_zero, Finset.filter_eq_empty_iff]
    intro e he h
    exact hd (Finset.mem_image.mpr ⟨e, he, h⟩)

/-- Membership in `presentDomains`, unfolded to the record list. -/
theorem mem_presentDomains (ex : List String) (logs : List LogRecord) (q : String × String)
    (hq : q ∈ logs.filterMap (classify ex)) :
    emailDomain q.1 ∈ presentDomains ex logs := by
  simp only [presentDomains, List.mem_toFinset, List.mem_map]
  exact ⟨q, hq, rfl⟩

/-- The per-domain unique-user count, rewritten as a `Finset.filter` of
the global unique-user set. -/
theorem count_users_uubd_filter (logs : List LogRecord) (w ex : List String) (d : String) :
    (count_users logs w ex).unique_users_by_domain d
      = (((logs.filterMap (classify ex)).map Prod.fst).toFinset.filter
          (fun e => emailDomain e = d)).card := by
  rw [count_users_uubd_eq]
  congr 1
  rw [List.toFinset_filter]
  simp

/-- A record surviving `classify` has a non-excluded domain. -/
theorem classify_domain_not_excluded (ex : List String) (logs : List LogRecord)
    (q : String × String) (hq : q ∈ logs.filterMap (classify ex)) :
    emailDomain q.1 ∉ ex := by
  obtain ⟨r, _, hr⟩ := List.mem_filterMap.mp hq
  cases hu : r.user_name with
  | none => simp [classify, hu] at hr
  | some e =>
    cases ht : r.type with
    | none => simp [classify, hu, ht] at hr
    | some t =>
      simp [classify, hu, ht] at hr
      obtain ⟨hcond, rfl⟩ := hr
      exact hcond.2.2

/-- A skipped record (in the sense of the spec's malformed/excluded
filtering rules, not counting a missing event type) : identifier absent,
no `@`, trailing `@`, or excluded domain. -/
def malformedOrExcluded (excluded_domains : List String) (r : LogRecord) : Bool :=
  match r.user_name with
  | none => true
  | some e => !containsAmp e || endsWithAmp e || decide (emailDomain e ∈ excluded_domains)

theorem classify_none_of_malformed (ex : List String) (r : LogRecord)
    (h : malformedOrExcluded ex r = true) : classify ex r = none := by
  cases hu : r.user_name with
  | none => simp [classify, hu]
  | some e =>
    cases ht : r.type with
    | none => simp [classify, hu, ht]
    | some t =>
      simp only [malformedOrExcluded, hu, Bool.or_eq_true, Bool.not_eq_true',
        decide_eq_true_eq] at h
      simp [classify, hu, ht]
      intro h1 h2
      rcases h with (h | h) | h
      · simp [h1] at h
      · simp [h2] at h
      · exact h

/-- Dropping records that `classify` skips leaves the extracted list
unchanged. -/
theorem filterMap_classify_filter (ex : List String) (logs : List LogRecord) :
    (logs.filter (fun r => !(malformedOrExcluded ex r))).filterMap (classify ex)
      = logs.filterMap (classify ex) := by
  induction logs with
  | nil => rfl
  | cons r l ih =>
    by_cases hm : malformedOrExcluded ex r = true
    · simp [List.filter_cons, hm, ih, List.filterMap_cons, classify_none_of_malformed ex r hm]
    · simp only [Bool.not_eq_true] at hm
      simp [List.filter_cons, hm, ih, List.filterMap_cons]

/-- `count_users` depends on its input only through `classify`. -/
theorem count_users_eq_of_classify_eq (logs1 logs2 : List LogRecord) (w ex : List String)
    (h : logs1.filterMap (classify ex) = logs2.filterMap (classify ex)) :
    count_users logs1 w ex = count_users logs2 w ex := by
  apply AggregationResult.ext
  · rw [count_users_total_eq, count_users_total_eq, h]
  · funext d
    rw [count_users_uubd_eq, count_users_uubd_eq, h]
  · rw [count_users_succ_eq, count_users_succ_eq, h]
  · funext d
    rw [count_users_succd_eq, count_users_succd_eq, h]
  · rw [count_users_fail_eq, count_users_fail_eq, h]
  · funext d
    rw [count_users_faild_eq, count_users_faild_eq, h]
  · rw [count_users_pass_eq, count_users_pass_eq, h]
  · funext d
    rw [count_users_passd_eq, count_users_passd_eq, h]
  · funext d e
    rw [count_users_detail_eq, count_users_detail_eq, h]

/-- A backend that throttles exactly twice, then serves a single
unpaginated page containing `recA` (state = number of calls so far). -/
def throttleTwice : Backend Nat :=
  { query := fun n _ _ => (if n < 2 then .throttled else .ok [recA] none, n + 1)
    elapse := fun _ => 0
    sleep := fun n _ => n }

/-! ## Claims -/

theorem daterange_nil_of_le (start_date end_date : Int) (h : end_date ≤ start_date) :
    daterange start_date end_date = [] := by
  have h0 : (end_date - start_date).toNat = 0 := Int.toNat_of_nonpos (by omega)
  simp [daterange, h0]

/-- C9: for every date range with `startDay = endDay` (or `startDay` after
`endDay`), the bounded-range retrieval issues zero partition queries
(empty trace) and returns an empty sequence, raising no error —
for every backend, initial state and pagination fuel. -/
theorem C9_empty_range {σ : Type} (B : Backend σ) (s0 : σ) (start_date end_date : Int)
    (fuel : Nat) (h : end_date ≤ start_date) :
    get_logs B s0 start_date end_date fuel = (.ok [], []) := by
  rw [get_logs, daterange_nil_of_le start_date end_date h]
  rfl

/-- Witness for C9 at a concrete empty range (`start = end = 3`). -/
theorem C9_empty_range_witness :
    get_logs emptyBackend () 3 3 5 = (.ok [], []) :=
  C9_empty_range emptyBackend () 3 3 5 (by decide)

/-- C8: every record in the sequence returned by a bounded-range
retrieval that completes without error has an event type among
`['f', 's', 'scp', 'fcpr']`; all other records were discarded at the page
where they arrived. -/
theorem C8_only_interesting_types {σ : Type} (B : Backend σ) (s0 : σ)
    (start_date end_date : Int) (fuel : Nat) (logs : List LogRecord)
    (h : (get_logs B s0 start_date end_date fuel).1 = .ok logs) :
    logs.all typeInteresting = true := by
  rw [get_logs] at h
  exact daysLoop_all B fuel (daterange start_date end_date) [] s0 [] logs rfl h

/-- Witness for C8 on a concrete backend with one empty page per day. -/
theorem C8_only_interesting_types_witness :
    (([] : List LogRecord)).all typeInteresting = true :=
  C8_only_interesting_types emptyBackend () 0 1 5 [] (by decide)

/-- C5: `count_users` is order-independent — permuting the input record
sequence leaves every scalar counter, every per-domain map and the
watched-domain detail unchanged. -/
theorem C5_order_independent (l1 l2 : List LogRecord) (w ex : List String)
    (h : l1.Perm l2) : count_users l1 w ex = count_users l2 w ex := by
  have hH := h.filterMap (classify ex)
  apply AggregationResult.ext
  · rw [count_users_total_eq, count_users_total_eq,
      List.toFinset_eq_of_perm _ _ (hH.map Prod.fst)]
  · funext d
    rw [count_users_uubd_eq, count_users_uubd_eq,
      List.toFinset_eq_of_perm _ _ ((hH.map Prod.fst).filter _)]
  · rw [count_users_succ_eq, count_users_succ_eq, List.Perm.countP_eq _ hH]
  · funext d
    rw [count_users_succd_eq, count_users_succd_eq, List.Perm.countP_eq _ hH]
  · rw [count_users_fail_eq, count_users_fail_eq, List.Perm.countP_eq _ hH]
  · funext d
    rw [count_users_faild_eq, count_users_faild_eq, List.Perm.countP_eq _ hH]
  · rw [count_users_pass_eq, count_users_pass_eq, List.Perm.countP_eq _ hH]
  · funext d
    rw [count_users_passd_eq, count_users_passd_eq, List.Perm.countP_eq _ hH]
  · funext d e
    rw [count_users_detail_eq, count_users_detail_eq, List.Perm.countP_eq _ hH]

/-- Witness for C5 at a concrete two-record swap. -/
theorem C5_order_independent_witness :
    count_users [recA, recB] [] [] = count_users [recB, recA] [] [] :=
  C5_order_independent [recA, recB] [recB, recA] [] [] (by decide)

theorem countP_domain_excluded_zero (logs : List LogRecord) (ex : List String)
    (d : String) (hd : d ∈ ex) (p : String → Bool) :
    (logs.filterMap (classify ex)).countP
      (fun q => p q.2 && emailDomain q.1 == d) = 0 := by
  rw [List.countP_eq_zero]
  intro q hq
  have hne := classify_domain_not_excluded ex logs q hq
  simp only [Bool.and_eq_true, beq_iff_eq, not_and]
  intro _ hdd
  exact hne (hdd ▸ hd)

/-- C6: records with a missing identifier, an identifier without `@` or
ending in `@`, or an excluded domain affect nothing: dropping all of them
leaves the `count_users` result identical, and an excluded domain is
entirely absent from every per-domain map of the result.  (`count_users`
is total, so such records also cause no error.) -/
theorem C6_skip_no_effect (logs : List LogRecord) (w ex : List String) (d : String)
    (hd : d ∈ ex) :
    count_users (logs.filter (fun r => !(malformedOrExcluded ex r))) w ex
        = count_users logs w ex
      ∧ (count_users logs w ex).unique_users_by_domain d = 0
      ∧ (count_users logs w ex).successful_logins_by_domain d = 0
      ∧ (count_users logs w ex).failed_logins_by_domain d = 0
      ∧ (count_users logs w ex).password_changes_by_domain d = 0
      ∧ (count_users logs w ex).users_by_watched_domain d = fun _ => 0 := by
  refine ⟨count_users_eq_of_classify_eq _ _ w ex (filterMap_classify_filter ex logs),
    ?_, ?_, ?_, ?_, ?_⟩
  · rw [count_users_uubd_eq]
    have hnil : ((logs.filterMap (classify ex)).map Prod.fst).filter
        (fun s => emailDomain s == d) = [] := by
      rw [List.filter_eq_nil_iff]
      intro a ha
      obtain ⟨q, hq, rfl⟩ := List.mem_map.mp ha
      have hne := classify_domain_not_excluded ex logs q hq
      simp only [beq_iff_eq]
      exact fun hh => hne (hh ▸ hd)
    rw [hnil]
    rfl
  · rw [count_users_succd_eq]
    exact countP_domain_excluded_zero logs ex d hd (fun x => x == "s")
  · rw [count_users_faild_eq]
    exact countP_domain_excluded_zero logs ex d hd (fun x => x == "f")
  · rw [count_users_passd_eq]
    exact countP_domain_excluded_zero logs ex d hd (fun x => x == "scp" || x == "fcpr")
  · funext e
    rw [count_users_detail_eq]
    by_cases hc : d ∈ w ∧ emailDomain e = d
    · rw [if_pos hc, List.countP_eq_zero]
      intro q hq
      have hne := classify_domain_not_excluded ex logs q hq
      simp only [beq_iff_eq]
      intro he
      exact hne (by rw [he, hc.2]; exact hd)
    · rw [if_neg hc]

/-- Witness for C6 at a concrete input containing a record of the
excluded domain `test.com`, a record with no identifier, and a kept
record. -/
theorem C6_skip_no_effect_witness :
    count_users ([⟨some "a@test.com", some "s"⟩, ⟨none, some "s"⟩,
          recA].filter (fun r => !(malformedOrExcluded ["test.com"] r))) [] ["test.com"]
        = count_users [⟨some "a@test.com", some "s"⟩, ⟨none, some "s"⟩, recA] [] ["test.com"]
      ∧ (count_users [⟨some "a@test.com", some "s"⟩, ⟨none, some "s"⟩, recA]
          [] ["test.com"]).unique_users_by_domain "test.com" = 0
      ∧ (count_users [⟨some "a@test.com", some "s"⟩, ⟨none, some "s"⟩, recA]
          [] ["test.com"]).successful_logins_by_domain "test.com" = 0
      ∧ (count_users [⟨some "a@test.com", some "s"⟩, ⟨none, some "s"⟩, recA]
          [] ["test.com"]).failed_logins_by_domain "test.com" = 0
      ∧ (count_users [⟨some "a@test.com", some "s"⟩, ⟨none, some "s"⟩, recA]
          [] ["test.com"]).password_changes_by_domain "test.com" = 0
      ∧ (count_users [⟨some "a@test.com", some "s"⟩, ⟨none, some "s"⟩, recA]
          [] ["test.com"]).users_by_watched_domain "test.com" = fun _ => 0 :=
  C6_skip_no_effect [⟨some "a@test.com", some "s"⟩, ⟨none, some "s"⟩, recA]
    [] ["test.com"] "test.com" (by decide)

/-- The three-record input of the spec's end-to-end example. -/
def c7logs : List LogRecord :=
  [⟨some "a@x.com", some "s"⟩, ⟨some "b@y.com", some "f"⟩, ⟨some "a@x.com", some "scp"⟩]

/-- C7: aggregating the three example records with no exclusions and no
watch-list yields 2 unique users, one success, one failure, one password
change, and one unique user for each of the domains `x.com` and `y.com`
(and no other domain). -/
theorem C7_end_to_end :
    (count_users c7logs [] []).total_users = 2
  ∧ (count_users c7logs [] []).successful_logins = 1
  ∧ (count_users c7logs [] []).failed_logins = 1
  ∧ (count_users c7logs [] []).password_changes = 1
  ∧ (count_users c7logs [] []).unique_users_by_domain
      = (fun d => if d = "x.com" then 1 else if d = "y.com" then 1 else 0) := by
  refine ⟨by decide, by decide, by decide, by decide, ?_⟩
  funext d
  rw [count_users_uubd_eq]
  have hH : ((c7logs.filterMap (classify [])).map Prod.fst)
      = ["a@x.com", "b@y.com", "a@x.com"] := by decide
  rw [hH]
  by_cases hx : d = "x.com"
  · subst hx; decide
  · by_cases hy : d = "y.com"
    · subst hy; decide
    · have e1 : emailDomain "a@x.com" = "x.com" := by decide
      have e2 : emailDomain "b@y.com" = "y.com" := by decide
      have hbx : ("x.com" == d) = false := by
        simp only [beq_eq_false_iff_ne, ne_eq]
        exact fun h => hx h.symm
      have hby : ("y.com" == d) = false := by
        simp only [beq_eq_false_iff_ne, ne_eq]
        exact fun h => hy h.symm
      simp [List.filter, e1, e2, hbx, hby, hx, hy]

/-- C10: for every record sequence, every `watchedDomains` and every
`excludedDomains`, over any finite domain set `S` covering all domains
present in the (non-skipped) records, `totalUniqueUsers` is the sum of
the per-domain unique-user counts, and the global success, failure and
password-change counters are the sums of their per-domain counterparts;
and any domain `d` whose watched-domain detail row is non-empty at some
identifier `e` belongs to `watchedDomains` (the last conjunct, an
implication holding for all `d`, `e`). -/
theorem C10_totals_and_watched_keys (logs : List LogRecord) (w ex : List String)
    (S : Finset String) (hS : presentDomains ex logs ⊆ S) (d e : String) :
    (count_users logs w ex).total_users
        = ∑ x ∈ S, (count_users logs w ex).unique_users_by_domain x
      ∧ (count_users logs w ex).successful_logins
        = ∑ x ∈ S, (count_users logs w ex).successful_logins_by_domain x
      ∧ (count_users logs w ex).failed_logins
        = ∑ x ∈ S, (count_users logs w ex).failed_logins_by_domain x
      ∧ (count_users logs w ex).password_changes
        = ∑ x ∈ S, (count_users logs w ex).password_changes_by_domain x
      ∧ ((count_users logs w ex).users_by_watched_domain d e ≠ 0 → d ∈ w) := by
  have hq : ∀ q ∈ logs.filterMap (classify ex), emailDomain q.1 ∈ S :=
    fun q hqq => hS (mem_presentDomains ex logs q hqq)
  have hT : ∀ a ∈ ((logs.filterMap (classify ex)).map Prod.fst).toFinset,
      emailDomain a ∈ S := by
    intro a ha
    obtain ⟨q, hq2, rfl⟩ := List.mem_map.mp (List.mem_toFinset.mp ha)
    exact hq q hq2
  refine ⟨?_, ?_, ?_, ?_, ?_⟩
  · rw [count_users_total_eq, card_eq_sum_filter_card _ S hT]
    exact Finset.sum_congr rfl (fun x _ => (count_users_uubd_filter logs w ex x).symm)
  · rw [count_users_succ_eq,
      ← sum_countP_by_domain (logs.filterMap (classify ex)) (fun x => x == "s") S hq]
    exact Finset.sum_congr rfl (fun x _ => (count_users_succd_eq logs w ex x).symm)
  · rw [count_users_fail_eq,
      ← sum_countP_by_domain (logs.filterMap (classify ex)) (fun x => x == "f") S hq]
    exact Finset.sum_congr rfl (fun x _ => (count_users_faild_eq logs w ex x).symm)
  · rw [count_users_pass_eq,
      ← sum_countP_by_domain (logs.filterMap (classify ex))
        (fun x => x == "scp" || x == "fcpr") S hq]
    exact Finset.sum_congr rfl (fun x _ => (count_users_passd_eq logs w ex x).symm)
  · intro hde
    rw [count_users_detail_eq] at hde
    by_cases hc : d ∈ w ∧ emailDomain e = d
    · exact hc.1
    · rw [if_neg hc] at hde
      exact absurd rfl hde

/-- Witness for C10 at a one-record input with a watched domain. -/
theorem C10_totals_and_watched_keys_witness :
    (count_users [recA] ["x.com"] []).total_users
        = ∑ x ∈ ({"x.com"} : Finset String),
            (count_users [recA] ["x.com"] []).unique_users_by_domain x
      ∧ (count_users [recA] ["x.com"] []).successful_logins
        = ∑ x ∈ ({"x.com"} : Finset String),
            (count_users [recA] ["x.com"] []).successful_logins_by_domain x
      ∧ (count_users [recA] ["x.com"] []).failed_logins
        = ∑ x ∈ ({"x.com"} : Finset String),
            (count_users [recA] ["x.com"] []).failed_logins_by_domain x
      ∧ (count_users [recA] ["x.com"] []).password_changes
        = ∑ x ∈ ({"x.com"} : Finset String),
            (count_users [recA] ["x.com"] []).password_changes_by_domain x
      ∧ ((count_users [recA] ["x.com"] []).users_by_watched_domain
            "x.com" "a@x.com" ≠ 0 → "x.com" ∈ ["x.com"]) :=
  C10_totals_and_watched_keys [recA] ["x.com"] [] {"x.com"} (by decide)
    "x.com" "a@x.com"

theorem filterMap_congr_mem {α β : Type} (f g : α → Option β) (l : List α)
    (h : ∀ a ∈ l, f a = g a) : l.filterMap f = l.filterMap g := by
  induction l with
  | nil => rfl
  | cons a l ih =>
    rw [List.filterMap_cons, List.filterMap_cons, h a (List.mem_cons_self a l),
      ih (fun x hx => h x (List.mem_cons_of_mem a hx))]

/-- C4 counterexample: a record with an identifier but no event-type
field is collected by `get_unique_addresses` yet skipped entirely by
`count_users` (its `KeyError` handler covers the type lookup), so for the
input `[⟨a@x.com, no type⟩]` with `watchedDomains = ["x.com"]` covering
every domain present, `uniqueIdentifiers` contains `a@x.com` while the
aggregation result — watched-domain detail included — equals that of the
empty input, whose detail maps have no keys at all. -/
theorem C4_counterexample :
    "a@x.com" ∈ get_unique_addresses [] [⟨some "a@x.com", none⟩]
    ∧ count_users [⟨some "a@x.com", none⟩] ["x.com"] []
        = count_users [] ["x.com"] []
    ∧ (count_users [⟨some "a@x.com", none⟩] ["x.com"] []).users_by_watched_domain
        "x.com" "a@x.com" = 0 :=
  ⟨by decide, rfl, by decide⟩

/-- C4 (amended): under the additional hypothesis that every record
carrying an identifier also carries an event type, and with
`watchedDomains` covering every domain present, the set returned by
`get_unique_addresses` has exactly the identifiers appearing as keys in
some `watchedDomainDetail[domain]` map, and its size equals the sum of
the `uniqueUsersByDomain` values. -/
theorem C4_unique_identifiers (logs : List LogRecord) (w ex : List String)
    (S : Finset String) (e : String)
    (hty : ∀ r ∈ logs, r.user_name.isSome → r.type.isSome)
    (hcov : ∀ q ∈ logs.filterMap (classify ex), emailDomain q.1 ∈ w)
    (hS : presentDomains ex logs ⊆ S) :
    (e ∈ get_unique_addresses ex logs ↔
      ∃ d, (count_users logs w ex).users_by_watched_domain d e ≠ 0)
    ∧ (get_unique_addresses ex logs).card
        = ∑ x ∈ S, (count_users logs w ex).unique_users_by_domain x := by
  have hua : logs.filterMap (uaEmail ex)
      = (logs.filterMap (classify ex)).map Prod.fst := by
    rw [List.map_filterMap]
    exact filterMap_congr_mem _ _ _ (fun r hr => uaEmail_eq_classify ex r (hty r hr))
  have hgua : get_unique_addresses ex logs
      = ((logs.filterMap (classify ex)).map Prod.fst).toFinset := by
    rw [get_unique_addresses_eq, hua]
  constructor
  · constructor
    · intro he
      rw [hgua, List.mem_toFinset] at he
      obtain ⟨q, hqmem, hq1⟩ := List.mem_map.mp he
      refine ⟨emailDomain e, ?_⟩
      rw [count_users_detail_eq, if_pos ⟨by rw [← hq1]; exact hcov q hqmem, rfl⟩]
      have hpos : 0 < (logs.filterMap (classify ex)).countP (fun q => q.1 == e) :=
        List.countP_pos_iff.mpr ⟨q, hqmem, by simp [hq1]⟩
      omega
    · intro hex
      obtain ⟨d, hd⟩ := hex
      rw [count_users_detail_eq] at hd
      by_cases hc : d ∈ w ∧ emailDomain e = d
      · rw [if_pos hc] at hd
        have hpos : 0 < (logs.filterMap (classify ex)).countP (fun q => q.1 == e) := by
          omega
        obtain ⟨q, hqmem, hq1⟩ := List.countP_pos_iff.mp hpos
        rw [hgua, List.mem_toFinset]
        exact List.mem_map.mpr ⟨q, hqmem, by simpa using hq1⟩
      · rw [if_neg hc] at hd
        exact absurd rfl hd
  · rw [hgua]
    have hT : ∀ a ∈ ((logs.filterMap (classify ex)).map Prod.fst).toFinset,
        emailDomain a ∈ S := by
      intro a ha
      obtain ⟨q, hq2, rfl⟩ := List.mem_map.mp (List.mem_toFinset.mp ha)
      exact hS (mem_presentDomains ex logs q hq2)
    rw [card_eq_sum_filter_card _ S hT]
    exact Finset.sum_congr rfl (fun x _ => (count_users_uubd_filter logs w ex x).symm)

/-- Witness for the amended C4 at a one-record input. -/
theorem C4_unique_identifiers_witness :
    ("a@x.com" ∈ get_unique_addresses [] [recA] ↔
      ∃ d, (count_users [recA] ["x.com"] []).users_by_watched_domain d "a@x.com" ≠ 0)
    ∧ (get_unique_addresses [] [recA]).card
        = ∑ x ∈ ({"x.com"} : Finset String),
            (count_users [recA] ["x.com"] []).unique_users_by_domain x :=
  C4_unique_identifiers [recA] ["x.com"] [] {"x.com"} "a@x.com"
    (by decide) (by decide) (by decide)

/-- C1 (code evaluation at the failing input): against a backend that
throttles every query, the one-day retrieval performs exactly 10
attempts — sleeping 1, 2, 4, …, 512 seconds — and then returns
`ok []`: the attempt loop falls through silently, the rate-limit error is
never propagated, and the caller receives an empty (partial) result with
no error. -/
theorem C1_throttle_ceiling_silent :
    get_logs alwaysThrottle () 0 1 1
      = (.ok [],
         [.query 0 none, .sleep 1, .query 0 none, .sleep 2,
          .query 0 none, .sleep 4, .query 0 none, .sleep 8,
          .query 0 none, .sleep 16, .query 0 none, .sleep 32,
          .query 0 none, .sleep 64, .query 0 none, .sleep 128,
          .query 0 none, .sleep 256, .query 0 none, .sleep 512]) := by
  decide

/-- C2 counterexample: on the two-page backend whose continuation-page
request throttles once, the request re-issued after the backoff sleep is
the day's first page (`ExclusiveStartKey` absent), not the throttled page
request `query 0 (some 1)`, and the already-processed first page is
re-accumulated, so the result contains `recA` twice instead of the
claimed `[recA, recB]`. -/
theorem C2_counterexample :
    get_logs midThrottle 0 0 1 5
      = (.ok [recA, recA, recB],
         [.query 0 none, .query 0 (some 1), .sleep 1,
          .query 0 none, .query 0 (some 1)])
    ∧ (get_logs midThrottle 0 0 1 5).2.get? 3 = some (.query 0 none)
    ∧ (get_logs midThrottle 0 0 1 5).1 ≠ .ok [recA, recB] := by
  refine ⟨by decide, by decide, by decide⟩

/-- C2 (amended): on a rate-limit signal the retriever sleeps `2 ^ i`
seconds on attempt `i` (base 1 s, doubling) and restarts the whole day's
pagination from its first page, keeping the records already accumulated
(so pages already processed are re-fetched and re-accumulated), for at
most 10 attempts per day; any non-throttling backend failure is
propagated immediately, with no retry and no sleep.  Shown on the
mid-page throttling backend, on a backend throttling exactly twice
(sleeps 1 then 2), and on an always-failing backend. -/
theorem C2_amended_retry_behavior :
    get_logs midThrottle 0 0 1 5
      = (.ok [recA, recA, recB],
         [.query 0 none, .query 0 (some 1), .sleep 1,
          .query 0 none, .query 0 (some 1)])
    ∧ get_logs throttleTwice 0 0 1 5
      = (.ok [recA],
         [.query 0 none, .sleep 1, .query 0 none, .sleep 2, .query 0 none])
    ∧ get_logs alwaysFail () 0 1 5
      = (.fatal (.clientError "AccessDeniedException"), [.query 0 none]) := by
  refine ⟨by decide, by decide, by decide⟩

/-- C3 counterexample: on a backend whose elapsed wall clock already
exceeds the 900-second budget before anything is fetched, a one-day
single-page retrieval still issues its query and completes with `ok`:
no budget check happens before a page fetch (none at all on a day's
first page). -/
theorem C3_counterexample :
    TIMEOUT_SECONDS < lateClock.elapse ()
    ∧ get_logs lateClock () 0 1 5 = (.ok [recA], [.query 0 none]) :=
  ⟨by decide, by decide⟩

/-- C3 (amended): the elapsed time since retrieval start is compared to
the budget only after each continuation-page fetch; the window
accumulates across all days and pages (on `accumClock`, day 0 costs 800 s
and day 1's two pages cost 60 s each, so the check after day 1's second
page sees 920 s > 900 s even though day 1 alone used only 120 s ≤ 900 s),
and the whole retrieval then aborts with a timeout error naming the day
being processed (day 1). -/
theorem C3_amended_timeout_behavior :
    get_logs accumClock 0 0 2 5
      = (.fatal (.timeout 1), [.query 0 none, .query 1 none, .query 1 (some 1)])
    ∧ 60 + 60 ≤ TIMEOUT_SECONDS
    ∧ get_logs lateClock () 0 1 5 = (.ok [recA], [.query 0 none]) := by
  refine ⟨by decide, by decide, by decide⟩
